import Mathlib

/-!
# Verification of the typed binary codec layer of `sqlx`

Shallow embedding of the Postgres `INTERVAL` codec
(`sqlx-core/src/postgres/types/interval.rs`), the geometric point codec
(`sqlx-core/src/postgres/types/geo.rs`) and the query-description scheme
dispatch (`sqlx-macros/src/query_macros/data.rs`), together with proofs of
the specified properties.

Machine integers are modelled as `Int`/`Nat` with explicit two's-complement
reduction where the code manipulates fixed-width values; byte buffers are
`List Nat` with every element a value below 256; fallible Rust code returns
`Except`/`DecodeResult` values, and a Rust `panic!`/`expect` is the
`DecodeResult.abort` constructor.
-/

namespace Sqlx

/-- Big-endian byte string (most significant byte first) of the `w`-byte
unsigned value `n % 256 ^ w`.  Mirrors the layout produced by Rust's
`to_be_bytes` once the two's-complement reduction has been applied. -/
def natToBytesBE : Nat → Nat → List Nat
  | 0, _ => []
  | w + 1, n => natToBytesBE w (n / 256) ++ [n % 256]

/-- Value of a big-endian byte string, as read by `byteorder::NetworkEndian`. -/
def fromBytesBE (bs : List Nat) : Nat :=
  bs.foldl (fun acc b => acc * 256 + b) 0

/-- Two's-complement `w`-bit unsigned image of a signed integer, i.e. the
bit pattern of an `iN` value reinterpreted as `uN`. -/
def toUnsigned (w : Nat) (x : Int) : Nat :=
  (x % (2 ^ w : Int)).toNat

/-- Reinterpret a `w`-bit unsigned value as a signed two's-complement
integer (the inverse direction of `toUnsigned`). -/
def toSigned (w : Nat) (n : Nat) : Int :=
  if n < 2 ^ (w - 1) then (n : Int) else (n : Int) - 2 ^ w

/-- Bytes of `x.to_be_bytes()` for `x : i64`. -/
def i64ToBytes (x : Int) : List Nat :=
  natToBytesBE 8 (toUnsigned 64 x)

/-- Bytes of `x.to_be_bytes()` for `x : i32`. -/
def i32ToBytes (x : Int) : List Nat :=
  natToBytesBE 4 (toUnsigned 32 x)

/-- Result flag of `encode_by_ref` (`sqlx_core::encode::IsNull`). -/
inductive IsNull where
  | yes
  | no
deriving DecidableEq, Repr

/-- The `PgInterval` struct of `postgres/types/interval.rs`: direct access to
the Postgres `INTERVAL` type.  The Rust fields are `i32`, `i32`, `i64`;
claims about the codec carry the corresponding range bounds explicitly. -/
structure PgInterval where
  months : Int
  days : Int
  microseconds : Int
deriving DecidableEq, Repr

/-- `Encode::encode_by_ref` for `PgInterval`: extends the argument buffer
with `microseconds.to_be_bytes()`, then `days.to_be_bytes()`, then
`months.to_be_bytes()`, and reports `IsNull::No`. -/
def PgInterval.encode_by_ref (v : PgInterval) (buf : List Nat) : List Nat × IsNull :=
  (buf ++ i64ToBytes v.microseconds ++ i32ToBytes v.days ++ i32ToBytes v.months, IsNull.no)

/-- `Encode::size_hint` for `PgInterval`: `2 * mem::size_of::<i64>()`. -/
def PgInterval.size_hint (_ : PgInterval) : Nat :=
  2 * 8

/-- Outcome of a fallible Rust call, with process aborts kept observable:
`ok` is a normal return, `error` a recoverable `Err` value, and `abort` a
`panic!`/`unimplemented!`/`expect` failure (process termination, not a
caller-visible error value). -/
inductive DecodeResult (α : Type) where
  | ok (val : α)
  | error (msg : String)
  | abort (msg : String)
deriving DecidableEq, Repr

/-- Sequencing of fallible calls: `error` and `abort` short-circuit. -/
def DecodeResult.bind {α β : Type} : DecodeResult α → (α → DecodeResult β) → DecodeResult β
  | .ok a, f => f a
  | .error e, _ => .error e
  | .abort m, _ => .abort m

instance : Monad DecodeResult where
  pure := DecodeResult.ok
  bind := DecodeResult.bind

instance {ε α : Type} [DecidableEq ε] [DecidableEq α] : DecidableEq (Except ε α) := by
  intro a b
  cases a <;> cases b
  case ok.ok x y =>
    exact match decEq x y with
    | isTrue h => isTrue (by rw [h])
    | isFalse h => isFalse (by intro hc; injection hc; contradiction)
  case error.error x y =>
    exact match decEq x y with
    | isTrue h => isTrue (by rw [h])
    | isFalse h => isFalse (by intro hc; injection hc; contradiction)
  case ok.error x y => exact isFalse (by intro hc; exact Except.noConfusion hc)
  case error.ok x y => exact isFalse (by intro hc; exact Except.noConfusion hc)

/-- Modelled from the spec: the byte-cursor read primitives
(`byteorder::ReadBytesExt` over `&[u8]` and `crate::io::Buf`) are not among
the analysed sources; per the spec, reading `w` bytes from a cursor advances
it past them, and a cursor holding fewer than `w` bytes fails with a
short-buffer error. -/
def readBytes (w : Nat) (buf : List Nat) : DecodeResult (List Nat × List Nat) :=
  if w ≤ buf.length then .ok (buf.take w, buf.drop w) else .error "short buffer"

/-- Wire format tag of a `PgValueRef` (`PgValueFormat`). -/
inductive PgValueFormat where
  | binary
  | text
deriving DecidableEq, Repr

/-- A received wire value: format tag plus payload bytes (`PgValueRef`). -/
structure PgValueRef where
  format : PgValueFormat
  bytes : List Nat

/-- `Decode::decode` for `PgInterval`: in binary format read an `i64`
(microseconds), an `i32` (days) and an `i32` (months), big-endian, in that
order; text format is not implemented and returns an error value. -/
def PgInterval.decode (value : PgValueRef) : DecodeResult PgInterval :=
  match value.format with
  | .binary => do
    let (mi, r1) ← readBytes 8 value.bytes
    let (da, r2) ← readBytes 4 r1
    let (mo, _) ← readBytes 4 r2
    DecodeResult.ok
      { months := toSigned 32 (fromBytesBE mo),
        days := toSigned 32 (fromBytesBE da),
        microseconds := toSigned 64 (fromBytesBE mi) }
  | .text => .error "not implemented: decode `INTERVAL` in text mode (unprepared queries)"

/-- `std::time::Duration`: an unsigned elapsed time of `secs` whole seconds
plus `nanos` nanoseconds (the Rust type keeps `nanos < 10 ^ 9`; none of the
verified code depends on that invariant). -/
structure Duration where
  secs : Nat
  nanos : Nat
deriving DecidableEq, Repr

/-- `Duration::as_nanos`: the total number of nanoseconds. -/
def Duration.asNanos (d : Duration) : Nat :=
  d.secs * 1000000000 + d.nanos

/-- `Duration::as_micros`: the total number of whole microseconds. -/
def Duration.asMicros (d : Duration) : Nat :=
  d.secs * 1000000 + d.nanos / 1000

/-- `i64::try_from` on an unsigned (`u128`) source: fails beyond
`i64::MAX`.  The error string is the `Display` text of
`TryFromIntError`. -/
def i64TryFromNat (n : Nat) : Except String Int :=
  if n < 2 ^ 63 then .ok (n : Int) else .error "out of range integral type conversion attempted"

/-- `TryFrom<std::time::Duration> for PgInterval`: reject sub-microsecond
precision, otherwise take the total microseconds with a checked conversion
into `i64`. -/
def PgInterval.tryFromStd (d : Duration) : Except String PgInterval :=
  if d.asNanos % 1000 ≠ 0 then
    .error "PostgreSQL `INTERVAL` does not support nanoseconds precision"
  else
    match i64TryFromNat d.asMicros with
    | .ok m => .ok { months := 0, days := 0, microseconds := m }
    | .error e => .error e

/-- Rust's `Option::ok_or`: turn `none` into the given error value. -/
def okOr {α : Type} (o : Option α) (msg : String) : Except String α :=
  match o with
  | some a => .ok a
  | none => .error msg

/-- `u64::checked_mul`: `none` on overflow past `2 ^ 64 - 1`. -/
def checkedMulU64 (a b : Nat) : Option Nat :=
  if a * b < 2 ^ 64 then some (a * b) else none

/-- `u64::checked_add`: `none` on overflow past `2 ^ 64 - 1`. -/
def checkedAddU64 (a b : Nat) : Option Nat :=
  if a + b < 2 ^ 64 then some (a + b) else none

/-- `u64::try_from` on a signed (`i32`/`i64`) source: fails on negatives
and past `u64::MAX`. -/
def u64TryFromInt (x : Int) : Except String Nat :=
  if 0 ≤ x ∧ x < 2 ^ 64 then .ok x.toNat
  else .error "out of range integral type conversion attempted"

/-- `u32::try_from` on a signed (`i64`) source: fails on negatives and past
`u32::MAX`. -/
def u32TryFromInt (x : Int) : Except String Nat :=
  if 0 ≤ x ∧ x < 2 ^ 32 then .ok x.toNat
  else .error "out of range integral type conversion attempted"

/-- `TryInto<std::time::Duration> for PgInterval`: seconds are
`months * 30 * 24 * 60 * 60 + days * 24 * 60 * 60 + microseconds / 10 ^ 6`
accumulated in `u64` with a checked conversion and checked arithmetic at
every step; the sub-second microsecond remainder times 1000 becomes the
nanosecond component.  Rust's `i64` division and remainder truncate toward
zero, hence `Int.tdiv`/`Int.tmod`. -/
def PgInterval.tryIntoStd (v : PgInterval) : Except String Duration := do
  let m ← u64TryFromInt v.months
  let mSecs ← okOr (checkedMulU64 m (30 * 24 * 60 * 60)) "months would overflow in seconds"
  let d ← u64TryFromInt v.days
  let dSecs ← okOr (checkedMulU64 d (24 * 60 * 60)) "days would overflow in seconds"
  let s1 ← okOr (checkedAddU64 mSecs dSecs) "months + days would overflow in seconds"
  let uSecs ← u64TryFromInt (v.microseconds.tdiv 1000000)
  let secs ← okOr (checkedAddU64 s1 uSecs)
    "months + days + microseconds would overflow in seconds"
  let nanos ← u32TryFromInt (v.microseconds.tmod 1000000 * 1000)
  return { secs := secs, nanos := nanos }

/-- Payload of a received wire value in the API generation `geo.rs` is
written against (`PgData`): binary bytes or a text string. -/
inductive PgData where
  | binary (buf : List Nat)
  | text (s : String)
deriving DecidableEq, Repr

/-- `geo::Coordinate<f64>`: a coordinate pair.  The two components are kept
as the raw 64-bit big-endian bit patterns read from the wire; the decode
path performs no floating-point arithmetic on them. -/
structure Coordinate where
  x : Nat
  y : Nat
deriving DecidableEq, Repr

/-- `Decode::decode` for `Coordinate<f64>` (`geo.rs`): in binary format
consume a one-byte marker, 8 bytes for `x`, a one-byte marker, 8 bytes for
`y` and a final one-byte marker, returning `(x, y)`; the `println!`
diagnostics in the source affect no returned value and are omitted.  The
text branch is `unimplemented!()`, which panics — modelled as `abort`. -/
def Coordinate.decode (value : PgData) : DecodeResult Coordinate :=
  match value with
  | .binary buf => do
    let (_, r1) ← readBytes 1 buf
    let (xb, r2) ← readBytes 8 r1
    let (_, r3) ← readBytes 1 r2
    let (yb, r4) ← readBytes 8 r3
    let (_, _) ← readBytes 1 r4
    DecodeResult.ok { x := fromBytesBE xb, y := fromBytesBE yb }
  | .text _ => .abort "not implemented"

/-- `Encode::encode_by_ref` for `std::time::Duration`: converts through
`PgInterval::try_from` and calls `.expect(...)`, so a conversion failure is
a process abort, not an error value. -/
def Duration.encode_by_ref (d : Duration) (buf : List Nat) : DecodeResult (List Nat × IsNull) :=
  match PgInterval.tryFromStd d with
  | .ok i => .ok (i.encode_by_ref buf)
  | .error _ => .abort "failed to encode `std::time::Duration`"

/-- Modelled from the spec: `chrono::Duration` is one of the two optional
signed host duration types, bridged to `PgInterval` by delegating to its
native conversion into the standard unsigned duration; it is carried here
as a total signed nanosecond count. -/
structure ChronoDuration where
  totalNanos : Int
deriving DecidableEq, Repr

/-- Modelled from the spec: `chrono::Duration::to_std` fails (with chrono's
out-of-range error) on a negative duration and otherwise yields the same
span as an unsigned standard duration. -/
def ChronoDuration.to_std (c : ChronoDuration) : Except String Duration :=
  if c.totalNanos < 0 then .error "OutOfRangeError"
  else .ok ⟨c.totalNanos.toNat / 1000000000, c.totalNanos.toNat % 1000000000⟩

/-- `TryFrom<chrono::Duration> for PgInterval`: `value.to_std()?.try_into()`. -/
def PgInterval.tryFromChrono (c : ChronoDuration) : Except String PgInterval :=
  match c.to_std with
  | .ok d => PgInterval.tryFromStd d
  | .error e => .error e

/-- `Encode::encode_by_ref` for `chrono::Duration`: converts through
`PgInterval::try_from` and calls `.expect(...)`. -/
def ChronoDuration.encode_by_ref (c : ChronoDuration) (buf : List Nat) :
    DecodeResult (List Nat × IsNull) :=
  match PgInterval.tryFromChrono c with
  | .ok i => .ok (i.encode_by_ref buf)
  | .error _ => .abort "Failed to encode chrono::Duration"

/-- Modelled from the spec: `time::Duration` is the other optional signed
host duration type (nanosecond resolution), carried as a total signed
nanosecond count; `whole_nanoseconds`/`whole_microseconds` are the
truncated totals. -/
structure TimeDuration where
  totalNanos : Int
deriving DecidableEq, Repr

/-- `i64::try_from` on a signed (`i128`) source: fails outside
`[i64::MIN, i64::MAX]`. -/
def i64TryFromInt (x : Int) : Except String Int :=
  if -(2 ^ 63) ≤ x ∧ x < 2 ^ 63 then .ok x
  else .error "out of range integral type conversion attempted"

/-- `TryFrom<time::Duration> for PgInterval`: reject a nonzero
sub-microsecond remainder of `whole_nanoseconds()`, otherwise convert
`whole_microseconds()` into `i64` with a checked conversion (Rust `%` and
`/` on `i128` truncate toward zero, hence `tmod`/`tdiv`). -/
def PgInterval.tryFromTime (t : TimeDuration) : Except String PgInterval :=
  if t.totalNanos.tmod 1000 ≠ 0 then
    .error "PostgreSQL `INTERVAL` does not support nanoseconds precision"
  else
    match i64TryFromInt (t.totalNanos.tdiv 1000) with
    | .ok m => .ok { months := 0, days := 0, microseconds := m }
    | .error e => .error e

/-- `Encode::encode_by_ref` for `time::Duration`: converts through
`PgInterval::try_from` and calls `.expect(...)`. -/
def TimeDuration.encode_by_ref (t : TimeDuration) (buf : List Nat) :
    DecodeResult (List Nat × IsNull) :=
  match PgInterval.tryFromTime t with
  | .ok i => .ok (i.encode_by_ref buf)
  | .error _ => .abort "Failed to encode time::Duration"

/-- A wire type identifier plus display name (`PgTypeInfo`). -/
structure PgTypeInfo where
  id : String
  name : String
deriving DecidableEq, Repr

/-- Modelled from the spec: the catalog constant `PgTypeInfo::INTERVAL` is
declared outside the analysed sources; the spec assigns one identifier per
distinct wire representation. -/
def PgTypeInfo.INTERVAL : PgTypeInfo := ⟨"interval", "INTERVAL"⟩

/-- Modelled from the spec: the catalog constant
`PgTypeInfo::INTERVAL_ARRAY`, the distinct identifier of the
interval-array wire representation. -/
def PgTypeInfo.INTERVAL_ARRAY : PgTypeInfo := ⟨"interval-array", "INTERVAL[]"⟩

/-- `Type<Postgres>::type_info` for `PgInterval`. -/
def PgInterval.type_info : PgTypeInfo := PgTypeInfo.INTERVAL

/-- `Type<Postgres>::type_info` for the sequence form `[PgInterval]`. -/
def PgInterval.slice_type_info : PgTypeInfo := PgTypeInfo.INTERVAL_ARRAY

/-- `Type<Postgres>::type_info` for `std::time::Duration`. -/
def Duration.type_info : PgTypeInfo := PgTypeInfo.INTERVAL

/-- `Type<Postgres>::type_info` for `[std::time::Duration]`. -/
def Duration.slice_type_info : PgTypeInfo := PgTypeInfo.INTERVAL_ARRAY

/-- `Type<Postgres>::type_info` for `chrono::Duration`. -/
def ChronoDuration.type_info : PgTypeInfo := PgTypeInfo.INTERVAL

/-- `Type<Postgres>::type_info` for `[chrono::Duration]`. -/
def ChronoDuration.slice_type_info : PgTypeInfo := PgTypeInfo.INTERVAL_ARRAY

/-- `Type<Postgres>::type_info` for `time::Duration`. -/
def TimeDuration.type_info : PgTypeInfo := PgTypeInfo.INTERVAL

/-- `Type<Postgres>::type_info` for `[time::Duration]`. -/
def TimeDuration.slice_type_info : PgTypeInfo := PgTypeInfo.INTERVAL_ARRAY

/-- Which backend features were compiled into the build (`cfg(feature)`). -/
structure Features where
  sqlite : Bool
  postgres : Bool
  mysql : Bool
deriving DecidableEq, Repr

/-- The backends of the fixed scheme table in `QueryData::from_db`. -/
inductive Backend where
  | sqlite
  | postgres
  | mysql
deriving DecidableEq, Repr

/-- Outcome of the scheme dispatch of `QueryData::from_db`: either proceed
to connect to the named backend (connection and describe are external
collaborators) or fail with a caller-visible error value. -/
inductive FromDbOutcome where
  | connect (b : Backend) (url : String)
  | error (msg : String)
deriving DecidableEq, Repr

/-- Error text of the `sqlite`-scheme branch when the `sqlite` feature is
not compiled in. -/
def sqliteNotCompiledMsg (url : String) : String :=
  "database URL " ++ url ++
    " has the scheme of a SQLite database but the `sqlite` feature of sqlx was not enabled"

/-- Error text of the `postgresql`/`postgres` branch when the `postgres`
feature is not compiled in. -/
def postgresNotCompiledMsg (url : String) : String :=
  "database URL " ++ url ++
    " has the scheme of a Postgres database but the `postgres` feature of sqlx was not enabled"

/-- Error text of the `mysql`/`mariadb` branch when the `mysql` feature is
not compiled in. -/
def mysqlNotCompiledMsg (url : String) : String :=
  "database URL " ++ url ++
    " has the scheme of a MySQL/MariaDB database but the `mysql` feature of sqlx was not enabled"

/-- Error text of the fallthrough branch: `{:?}` renders the scheme inside
double quotes. -/
def unknownSchemeMsg (scheme url : String) : String :=
  "unexpected scheme \"" ++ scheme ++ "\" in database URL " ++ url

/-- Scheme dispatch of `QueryData::from_db` (`data.rs`), parameterised by
the compiled-in feature set.  Modelled from the spec at its boundary: URL
parsing (the `url` crate) and the subsequent connect/describe calls are
external collaborators, so the function receives the parsed scheme and the
rendered URL and stops at the dispatch decision. -/
def QueryData.from_db (f : Features) (scheme url : String) : FromDbOutcome :=
  if scheme = "sqlite" then
    if f.sqlite then .connect .sqlite url else .error (sqliteNotCompiledMsg url)
  else if scheme = "postgresql" ∨ scheme = "postgres" then
    if f.postgres then .connect .postgres url else .error (postgresNotCompiledMsg url)
  else if scheme = "mysql" ∨ scheme = "mariadb" then
    if f.mysql then .connect .mysql url else .error (mysqlNotCompiledMsg url)
  else
    .error (unknownSchemeMsg scheme url)

/-- First character of a string, used to separate error texts. -/
def firstChar (s : String) : Option Char :=
  s.data.head?

end Sqlx

namespace Sqlx

theorem natToBytesBE_length (w : Nat) : ∀ n, (natToBytesBE w n).length = w := by
  induction w with
  | zero => intro n; rfl
  | succ w ih =>
    intro n
    rw [natToBytesBE, List.length_append, ih]
    simp

theorem fromBytesBE_append_byte (bs : List Nat) (b : Nat) :
    fromBytesBE (bs ++ [b]) = fromBytesBE bs * 256 + b := by
  simp [fromBytesBE, List.foldl_append]

theorem fromBytesBE_natToBytesBE (w : Nat) :
    ∀ n, fromBytesBE (natToBytesBE w n) = n % 256 ^ w := by
  induction w with
  | zero =>
    intro n
    simp [natToBytesBE, fromBytesBE, Nat.mod_one]
  | succ w ih =>
    intro n
    rw [natToBytesBE, fromBytesBE_append_byte, ih]
    have key : n = 256 ^ w * 256 * (n / 256 / 256 ^ w) +
        (n / 256 % 256 ^ w * 256 + n % 256) := by
      calc n = 256 * (n / 256) + n % 256 := (Nat.div_add_mod n 256).symm
        _ = 256 * (256 ^ w * (n / 256 / 256 ^ w) + n / 256 % 256 ^ w) + n % 256 := by
              rw [Nat.div_add_mod, Nat.div_add_mod]
              omega
        _ = 256 ^ w * 256 * (n / 256 / 256 ^ w) + (n / 256 % 256 ^ w * 256 + n % 256) := by
              ring
    have hlt : n / 256 % 256 ^ w * 256 + n % 256 < 256 ^ w * 256 := by
      have h1 : n / 256 % 256 ^ w < 256 ^ w := Nat.mod_lt _ (Nat.pos_pow_of_pos w (by omega))
      have h2 : n % 256 < 256 := Nat.mod_lt _ (by omega)
      omega
    rw [pow_succ]
    conv_rhs => rw [key]
    rw [Nat.mul_add_mod, Nat.mod_eq_of_lt hlt]

theorem toUnsigned_lt (w : Nat) (x : Int) : toUnsigned w x < 2 ^ w := by
  have hpos : (0 : Int) < 2 ^ w := by positivity
  have h1 : 0 ≤ x % (2 ^ w : Int) := Int.emod_nonneg x (by omega)
  have h2 : x % (2 ^ w : Int) < 2 ^ w := Int.emod_lt_of_pos x hpos
  have hcast : ((2 ^ w : Nat) : Int) = (2 ^ w : Int) := by push_cast; ring
  unfold toUnsigned
  omega

theorem toSigned_toUnsigned (w : Nat) (x : Int) (hw : 0 < w)
    (h1 : -((2 : Int) ^ (w - 1)) ≤ x) (h2 : x < (2 : Int) ^ (w - 1)) :
    toSigned w (toUnsigned w x) = x := by
  have hP : ((2 ^ (w - 1) : Nat) : Int) = (2 : Int) ^ (w - 1) := by push_cast; ring
  have hW : ((2 ^ w : Nat) : Int) = (2 : Int) ^ w := by push_cast; ring
  have h2w : (2 : Int) ^ w = 2 * (2 : Int) ^ (w - 1) := by
    conv_lhs => rw [show w = (w - 1) + 1 from by omega]
    ring
  have hpos : (0 : Int) < (2 : Int) ^ w := by positivity
  rcases le_or_lt 0 x with hx | hx
  · have hmx : x % (2 : Int) ^ w = x := Int.emod_eq_of_lt hx (by omega)
    simp only [toSigned, toUnsigned, hmx]
    split
    · omega
    · rename_i hcond
      exfalso
      apply hcond
      omega
  · have hmx : x % (2 : Int) ^ w = x + 2 ^ w := by
      have hrw : (x + (2 : Int) ^ w) % (2 : Int) ^ w = x % (2 : Int) ^ w := by
        simp [Int.add_mul_emod_self_left]
      rw [← hrw]
      exact Int.emod_eq_of_lt (by omega) (by omega)
    simp only [toSigned, toUnsigned, hmx]
    split
    · rename_i hcond
      exfalso
      omega
    · omega

theorem i64ToBytes_length (x : Int) : (i64ToBytes x).length = 8 := by
  rw [i64ToBytes, natToBytesBE_length]

theorem i32ToBytes_length (x : Int) : (i32ToBytes x).length = 4 := by
  rw [i32ToBytes, natToBytesBE_length]

theorem toSigned_fromBytes_i64 (x : Int) (h1 : -(2 ^ 63) ≤ x) (h2 : x < 2 ^ 63) :
    toSigned 64 (fromBytesBE (i64ToBytes x)) = x := by
  rw [i64ToBytes, fromBytesBE_natToBytesBE,
    Nat.mod_eq_of_lt (lt_of_lt_of_le (toUnsigned_lt 64 x) (by norm_num))]
  exact toSigned_toUnsigned 64 x (by omega) h1 h2

theorem toSigned_fromBytes_i32 (x : Int) (h1 : -(2 ^ 31) ≤ x) (h2 : x < 2 ^ 31) :
    toSigned 32 (fromBytesBE (i32ToBytes x)) = x := by
  rw [i32ToBytes, fromBytesBE_natToBytesBE,
    Nat.mod_eq_of_lt (lt_of_lt_of_le (toUnsigned_lt 32 x) (by norm_num))]
  exact toSigned_toUnsigned 32 x (by omega) h1 h2

theorem DecodeResult.bind_ok {α β : Type} (a : α) (f : α → DecodeResult β) :
    (DecodeResult.ok a >>= f) = f a := rfl

theorem DecodeResult.bind_error {α β : Type} (e : String) (f : α → DecodeResult β) :
    ((DecodeResult.error e : DecodeResult α) >>= f) = .error e := rfl

theorem readBytes_prefix (xs ys : List Nat) (w : Nat) (h : xs.length = w) :
    readBytes w (xs ++ ys) = .ok (xs, ys) := by
  subst h
  rw [readBytes, if_pos (by simp)]
  rw [List.take_left, List.drop_left]

theorem readBytes_short (w : Nat) (buf : List Nat) (h : buf.length < w) :
    readBytes w buf = .error "short buffer" := by
  rw [readBytes, if_neg (by omega)]

/-- C1: for every `PgInterval` value `v` with `months` and `days` in the
signed 32-bit range and `microseconds` in the signed 64-bit range, decoding
in binary format the bytes produced by encoding `v` returns exactly `v`. -/
theorem C1_interval_binary_roundtrip (v : PgInterval)
    (hm1 : -(2 ^ 31) ≤ v.months) (hm2 : v.months < 2 ^ 31)
    (hd1 : -(2 ^ 31) ≤ v.days) (hd2 : v.days < 2 ^ 31)
    (hu1 : -(2 ^ 63) ≤ v.microseconds) (hu2 : v.microseconds < 2 ^ 63) :
    PgInterval.decode ⟨.binary, (v.encode_by_ref []).1⟩ = .ok v := by
  obtain ⟨mo, da, mi⟩ := v
  simp only at hm1 hm2 hd1 hd2 hu1 hu2
  have h1 : readBytes 8 (i64ToBytes mi ++ (i32ToBytes da ++ i32ToBytes mo)) =
      .ok (i64ToBytes mi, i32ToBytes da ++ i32ToBytes mo) :=
    readBytes_prefix _ _ _ (i64ToBytes_length mi)
  have h2 : readBytes 4 (i32ToBytes da ++ i32ToBytes mo) =
      .ok (i32ToBytes da, i32ToBytes mo) :=
    readBytes_prefix _ _ _ (i32ToBytes_length da)
  have h3 : readBytes 4 (i32ToBytes mo) = .ok (i32ToBytes mo, []) := by
    have h := readBytes_prefix (i32ToBytes mo) [] _ (i32ToBytes_length mo)
    rw [List.append_nil] at h
    exact h
  simp only [PgInterval.decode, PgInterval.encode_by_ref, List.nil_append,
    List.append_assoc, h1, h2, h3, DecodeResult.bind_ok]
  rw [toSigned_fromBytes_i32 mo hm1 hm2, toSigned_fromBytes_i32 da hd1 hd2,
    toSigned_fromBytes_i64 mi hu1 hu2]

/-- Witness for C1 at the concrete value
`{months := -5, days := 7, microseconds := -123456789}`. -/
theorem C1_interval_binary_roundtrip_witness :
    PgInterval.decode ⟨.binary, ((PgInterval.mk (-5) 7 (-123456789)).encode_by_ref []).1⟩ =
      .ok (PgInterval.mk (-5) 7 (-123456789)) :=
  C1_interval_binary_roundtrip (PgInterval.mk (-5) 7 (-123456789))
    (by decide) (by decide) (by decide) (by decide) (by decide) (by decide)

/-- C2: encoding any `PgInterval` writes exactly its microseconds field
(8 bytes), then its days field (4 bytes), then its months field (4 bytes),
all big-endian (16 bytes appended), declares a size hint of exactly
16 bytes, and on the given concrete inputs produces exactly the stated
byte strings (`days = 1` puts the byte 1 at offset 11, `months = 1` puts
it at offset 15). -/
theorem C2_interval_encode_layout :
    (∀ (v : PgInterval) (buf : List Nat),
        (v.encode_by_ref buf).1 =
          buf ++ i64ToBytes v.microseconds ++ i32ToBytes v.days ++ i32ToBytes v.months ∧
        (v.encode_by_ref buf).1.length = buf.length + 16 ∧
        (v.encode_by_ref buf).2 = IsNull.no ∧
        v.size_hint = 16) ∧
    ((PgInterval.mk 0 0 0).encode_by_ref []).1 =
      [0, 0, 0, 0, 0, 0, 0, 0, 0, 0, 0, 0, 0, 0, 0, 0] ∧
    ((PgInterval.mk 0 1 0).encode_by_ref []).1 =
      [0, 0, 0, 0, 0, 0, 0, 0, 0, 0, 0, 1, 0, 0, 0, 0] ∧
    ((PgInterval.mk 1 0 0).encode_by_ref []).1 =
      [0, 0, 0, 0, 0, 0, 0, 0, 0, 0, 0, 0, 0, 0, 0, 1] := by
  refine ⟨fun v buf => ⟨rfl, ?_, rfl, rfl⟩, by decide, by decide, by decide⟩
  simp only [PgInterval.encode_by_ref, List.length_append,
    i64ToBytes_length, i32ToBytes_length]

theorem exceptBind_ok {α β : Type} (a : α) (f : α → Except String β) :
    (Except.ok a >>= f) = f a := rfl

theorem exceptBind_error {α β : Type} (e : String) (f : α → Except String β) :
    ((Except.error e : Except String α) >>= f) = .error e := rfl

theorem exceptPure {α : Type} (a : α) : (pure a : Except String α) = .ok a := rfl

theorem okOr_some {α : Type} (a : α) (msg : String) : okOr (some a) msg = .ok a := rfl

theorem okOr_none {α : Type} (msg : String) : okOr (none : Option α) msg = .error msg := rfl

/-- C3: converting a `std::time::Duration` to a `PgInterval` fails with the
precision-loss error exactly when the sub-microsecond remainder is nonzero,
never truncates (a successful conversion satisfies
`microseconds * 1000 = total nanoseconds` and has `months = days = 0`),
performs an overflow-checked conversion of the total microseconds into the
signed 64-bit range failing with the range error beyond it, and maps a
27,000-microsecond duration to `{months := 0, days := 0, microseconds := 27000}`. -/
theorem C3_std_duration_to_interval :
    (∀ d : Duration, d.asNanos % 1000 ≠ 0 →
        PgInterval.tryFromStd d =
          .error "PostgreSQL `INTERVAL` does not support nanoseconds precision") ∧
    (∀ d : Duration, d.asNanos % 1000 = 0 → d.asMicros < 2 ^ 63 →
        PgInterval.tryFromStd d = .ok (PgInterval.mk 0 0 (d.asMicros : Int))) ∧
    (∀ d : Duration, d.asNanos % 1000 = 0 → 2 ^ 63 ≤ d.asMicros →
        PgInterval.tryFromStd d = .error "out of range integral type conversion attempted") ∧
    (∀ (d : Duration) (v : PgInterval), PgInterval.tryFromStd d = .ok v →
        v.months = 0 ∧ v.days = 0 ∧ v.microseconds * 1000 = (d.asNanos : Int)) ∧
    PgInterval.tryFromStd (Duration.mk 0 27000000) = .ok (PgInterval.mk 0 0 27000) := by
  refine ⟨?_, ?_, ?_, ?_, by decide⟩
  · intro d h
    rw [PgInterval.tryFromStd, if_pos h]
  · intro d h hlt
    rw [PgInterval.tryFromStd, if_neg (by omega), i64TryFromNat, if_pos hlt]
  · intro d h hge
    rw [PgInterval.tryFromStd, if_neg (by omega), i64TryFromNat, if_neg (by omega)]
  · intro d v h
    obtain ⟨s, n⟩ := d
    rw [PgInterval.tryFromStd] at h
    by_cases h0 : Duration.asNanos ⟨s, n⟩ % 1000 ≠ 0
    · rw [if_pos h0] at h
      exact absurd h (by simp)
    · rw [if_neg h0] at h
      by_cases h1 : Duration.asMicros ⟨s, n⟩ < 2 ^ 63
      · rw [i64TryFromNat, if_pos h1] at h
        injection h with h2
        subst h2
        refine ⟨rfl, rfl, ?_⟩
        simp only [Duration.asNanos, Duration.asMicros] at h0 ⊢
        push_cast
        omega
      · rw [i64TryFromNat, if_neg h1] at h
        exact absurd h (by simp)

/-- Witness for C3 at concrete inputs: a 1500-nanosecond duration is
rejected for precision loss, a 27,000-microsecond duration converts
exactly, and a duration of `u64::MAX` seconds overflows the signed 64-bit
microsecond range. -/
theorem C3_std_duration_to_interval_witness :
    PgInterval.tryFromStd (Duration.mk 0 1500) =
      .error "PostgreSQL `INTERVAL` does not support nanoseconds precision" ∧
    PgInterval.tryFromStd (Duration.mk 0 27000000) = .ok (PgInterval.mk 0 0 27000) ∧
    PgInterval.tryFromStd (Duration.mk 18446744073709551615 0) =
      .error "out of range integral type conversion attempted" :=
  ⟨C3_std_duration_to_interval.1 (Duration.mk 0 1500) (by decide),
   C3_std_duration_to_interval.2.1 (Duration.mk 0 27000000) (by decide) (by decide),
   C3_std_duration_to_interval.2.2.1 (Duration.mk 18446744073709551615 0)
     (by decide) (by decide)⟩

/-- C4: converting a `PgInterval` with fields in their machine ranges to a
`std::time::Duration` yields, when all fields are nonnegative, exactly
`months * 2592000 + days * 86400 + microseconds / 10 ^ 6` seconds (the
checked `u64` accumulation never wraps) with the sub-second microsecond
remainder times 1000 as the nanosecond component; any negative operand not
representable in the unsigned accumulator fails with the range-error
kind of the signed-to-unsigned conversion. -/
theorem C4_interval_to_std_duration (v : PgInterval)
    (hm2 : v.months < 2 ^ 31) (hd2 : v.days < 2 ^ 31) (hu2 : v.microseconds < 2 ^ 63) :
    (0 ≤ v.months → 0 ≤ v.days → 0 ≤ v.microseconds →
        v.tryIntoStd = .ok (Duration.mk
          (v.months.toNat * 2592000 + v.days.toNat * 86400 + v.microseconds.toNat / 1000000)
          (v.microseconds.toNat % 1000000 * 1000))) ∧
    ((v.months < 0 ∨ v.days < 0 ∨ v.microseconds < 0) →
        v.tryIntoStd = .error "out of range integral type conversion attempted") := by
  obtain ⟨mo, da, mi⟩ := v
  simp only at hm2 hd2 hu2
  have e31 : (2 : Int) ^ 31 = 2147483648 := by norm_num
  have e63 : (2 : Int) ^ 63 = 9223372036854775808 := by norm_num
  have e64 : (2 : Nat) ^ 64 = 18446744073709551616 := by norm_num
  have e64i : (2 : Int) ^ 64 = 18446744073709551616 := by norm_num
  have e32i : (2 : Int) ^ 32 = 4294967296 := by norm_num
  constructor
  · intro hm hd hu
    simp only at hm hd hu ⊢
    have hs1 : u64TryFromInt mo = .ok mo.toNat := by
      rw [u64TryFromInt, if_pos ⟨hm, by omega⟩]
    have hs2 : checkedMulU64 mo.toNat (30 * 24 * 60 * 60) = some (mo.toNat * 2592000) := by
      rw [checkedMulU64, if_pos (by omega)]
    have hs3 : u64TryFromInt da = .ok da.toNat := by
      rw [u64TryFromInt, if_pos ⟨hd, by omega⟩]
    have hs4 : checkedMulU64 da.toNat (24 * 60 * 60) = some (da.toNat * 86400) := by
      rw [checkedMulU64, if_pos (by omega)]
    have hs5 : checkedAddU64 (mo.toNat * 2592000) (da.toNat * 86400) =
        some (mo.toNat * 2592000 + da.toNat * 86400) := by
      rw [checkedAddU64, if_pos (by omega)]
    have htd : mi.tdiv 1000000 = mi / 1000000 := Int.tdiv_eq_ediv hu (by norm_num)
    have hs6 : u64TryFromInt (mi.tdiv 1000000) = .ok (mi.toNat / 1000000) := by
      rw [htd, u64TryFromInt, if_pos ⟨Int.ediv_nonneg hu (by norm_num), by omega⟩]
      congr 1
      omega
    have hs7 : checkedAddU64 (mo.toNat * 2592000 + da.toNat * 86400) (mi.toNat / 1000000) =
        some (mo.toNat * 2592000 + da.toNat * 86400 + mi.toNat / 1000000) := by
      rw [checkedAddU64, if_pos (by omega)]
    have htm : mi.tmod 1000000 = mi % 1000000 := Int.tmod_eq_emod hu (by norm_num)
    have hs8 : u32TryFromInt (mi.tmod 1000000 * 1000) = .ok (mi.toNat % 1000000 * 1000) := by
      have hnn : (0 : Int) ≤ mi % 1000000 := Int.emod_nonneg mi (by norm_num)
      have hub : mi % 1000000 < 1000000 := Int.emod_lt_of_pos mi (by norm_num)
      rw [htm, u32TryFromInt, if_pos ⟨by omega, by omega⟩]
      congr 1
      omega
    simp only [PgInterval.tryIntoStd, hs1, exceptBind_ok, hs2, okOr_some, hs3, hs4, hs5,
      hs6, hs7, hs8, exceptPure]
  · intro hneg
    simp only at hneg ⊢
    rcases lt_or_le mo 0 with hmo | hmo
    · have hs1 : u64TryFromInt mo = .error "out of range integral type conversion attempted" := by
        rw [u64TryFromInt, if_neg (by omega)]
      simp only [PgInterval.tryIntoStd, hs1, exceptBind_error]
    · have hs1 : u64TryFromInt mo = .ok mo.toNat := by
        rw [u64TryFromInt, if_pos ⟨hmo, by omega⟩]
      have hs2 : checkedMulU64 mo.toNat (30 * 24 * 60 * 60) = some (mo.toNat * 2592000) := by
        rw [checkedMulU64, if_pos (by omega)]
      rcases lt_or_le da 0 with hda | hda
      · have hs3 : u64TryFromInt da =
            .error "out of range integral type conversion attempted" := by
          rw [u64TryFromInt, if_neg (by omega)]
        simp only [PgInterval.tryIntoStd, hs1, exceptBind_ok, hs2, okOr_some, hs3,
          exceptBind_error]
      · have hs3 : u64TryFromInt da = .ok da.toNat := by
          rw [u64TryFromInt, if_pos ⟨hda, by omega⟩]
        have hs4 : checkedMulU64 da.toNat (24 * 60 * 60) = some (da.toNat * 86400) := by
          rw [checkedMulU64, if_pos (by omega)]
        have hs5 : checkedAddU64 (mo.toNat * 2592000) (da.toNat * 86400) =
            some (mo.toNat * 2592000 + da.toNat * 86400) := by
          rw [checkedAddU64, if_pos (by omega)]
        have hmi : mi < 0 := by
          rcases hneg with h | h | h
          · omega
          · omega
          · exact h
        have hflip : mi.tdiv 1000000 = -((-mi).tdiv 1000000) := by
          rw [show (-mi).tdiv 1000000 = -(mi.tdiv 1000000) from Int.neg_tdiv mi 1000000,
            Int.neg_neg]
        rcases le_or_lt mi (-1000000) with hbig | hsmall
        · have hpos : ((-mi).tdiv 1000000) ≥ 1 := by
            rw [Int.tdiv_eq_ediv (by omega) (by norm_num)]
            omega
          have hs6 : u64TryFromInt (mi.tdiv 1000000) =
              .error "out of range integral type conversion attempted" := by
            rw [u64TryFromInt, if_neg (by omega)]
          simp only [PgInterval.tryIntoStd, hs1, exceptBind_ok, hs2, okOr_some, hs3, hs4,
            hs5, hs6, exceptBind_error]
        · have hzero : mi.tdiv 1000000 = 0 := by
            rw [hflip, Int.tdiv_eq_ediv (by omega) (by norm_num),
              Int.ediv_eq_zero_of_lt (by omega) (by omega)]
            rfl
          have hs6 : u64TryFromInt (mi.tdiv 1000000) = .ok 0 := by
            rw [hzero, u64TryFromInt, if_pos ⟨le_refl 0, by omega⟩]
            rfl
          have hs7 : checkedAddU64 (mo.toNat * 2592000 + da.toNat * 86400) 0 =
              some (mo.toNat * 2592000 + da.toNat * 86400) := by
            rw [checkedAddU64, if_pos (by omega)]
            simp
          have htm : mi.tmod 1000000 = mi := by
            rw [Int.tmod_def, hzero]
            ring
          have hs8 : u32TryFromInt (mi.tmod 1000000 * 1000) =
              .error "out of range integral type conversion attempted" := by
            rw [htm, u32TryFromInt, if_neg (by rintro ⟨hc, -⟩; omega)]
          simp only [PgInterval.tryIntoStd, hs1, exceptBind_ok, hs2, okOr_some, hs3, hs4,
            hs5, hs6, hs7, hs8, exceptBind_error]

/-- Witness for C4: `{months := 1, days := 2, microseconds := 3000001}`
converts to 2,764,803 seconds and 1000 nanoseconds, while a negative months
field fails with the range error. -/
theorem C4_interval_to_std_duration_witness :
    PgInterval.tryIntoStd (PgInterval.mk 1 2 3000001) = .ok (Duration.mk 2764803 1000) ∧
    PgInterval.tryIntoStd (PgInterval.mk (-1) 0 0) =
      .error "out of range integral type conversion attempted" := by
  constructor
  · have h := (C4_interval_to_std_duration (PgInterval.mk 1 2 3000001)
      (by decide) (by decide) (by decide)).1 (by decide) (by decide) (by decide)
    rw [h]
    decide
  · exact (C4_interval_to_std_duration (PgInterval.mk (-1) 0 0)
      (by decide) (by decide) (by decide)).2 (Or.inl (by decide))

/-- C5 counterexample: decoding a `Point` wire value presented in text
format does not produce an error value — the text branch of
`Coordinate<f64>`'s decode is `unimplemented!()`, which panics (aborts the
process). -/
theorem C5_point_text_decode_panics :
    Coordinate.decode (PgData.text "(1,2)") = .abort "not implemented" := rfl

/-- C5 amended: for every Interval wire value presented in text format,
decode fails with an explicit unsupported-format error value and never
panics; a Point wire value in text format instead aborts the process via
an unimplemented panic rather than returning an error value. -/
theorem C5_text_decode_amended :
    (∀ bs : List Nat, PgInterval.decode ⟨.text, bs⟩ =
        .error "not implemented: decode `INTERVAL` in text mode (unprepared queries)") ∧
    (∀ s : String, Coordinate.decode (PgData.text s) = .abort "not implemented") :=
  ⟨fun _ => rfl, fun _ => rfl⟩

/-- C6: decoding a Point in binary format reads, in order, one marker byte,
8 bytes of `x`, one marker byte, 8 bytes of `y` and one marker byte
(19 bytes in all) and returns `{x, y}`; every cursor shorter than 19 bytes
fails with the short-buffer error value. -/
theorem C6_point_binary_decode (buf : List Nat) :
    (19 ≤ buf.length →
        Coordinate.decode (.binary buf) =
          .ok (Coordinate.mk (fromBytesBE ((buf.drop 1).take 8))
            (fromBytesBE ((buf.drop 10).take 8)))) ∧
    (buf.length < 19 → Coordinate.decode (.binary buf) = .error "short buffer") := by
  constructor
  · intro hlen
    have h1 : readBytes 1 buf = .ok (buf.take 1, buf.drop 1) := by
      rw [readBytes, if_pos (by omega)]
    have h2 : readBytes 8 (buf.drop 1) = .ok ((buf.drop 1).take 8, (buf.drop 1).drop 8) := by
      rw [readBytes, if_pos (by rw [List.length_drop]; omega)]
    have h3 : readBytes 1 (buf.drop 9) = .ok ((buf.drop 9).take 1, (buf.drop 9).drop 1) := by
      rw [readBytes, if_pos (by rw [List.length_drop]; omega)]
    have h4 : readBytes 8 (buf.drop 10) = .ok ((buf.drop 10).take 8, (buf.drop 10).drop 8) := by
      rw [readBytes, if_pos (by rw [List.length_drop]; omega)]
    have h5 : readBytes 1 (buf.drop 18) = .ok ((buf.drop 18).take 1, (buf.drop 18).drop 1) := by
      rw [readBytes, if_pos (by rw [List.length_drop]; omega)]
    simp only [Coordinate.decode, h1, h2, h3, h4, h5, DecodeResult.bind_ok, List.drop_drop]
  · intro hlen
    by_cases c1 : buf.length < 1
    · have h1 : readBytes 1 buf = .error "short buffer" := readBytes_short _ _ c1
      simp only [Coordinate.decode, h1, DecodeResult.bind_error]
    · have h1 : readBytes 1 buf = .ok (buf.take 1, buf.drop 1) := by
        rw [readBytes, if_pos (by omega)]
      by_cases c2 : (buf.drop 1).length < 8
      · have h2 : readBytes 8 (buf.drop 1) = .error "short buffer" := readBytes_short _ _ c2
        simp only [Coordinate.decode, h1, h2, DecodeResult.bind_ok, DecodeResult.bind_error]
      · rw [List.length_drop] at c2
        have h2 : readBytes 8 (buf.drop 1) =
            .ok ((buf.drop 1).take 8, (buf.drop 1).drop 8) := by
          rw [readBytes, if_pos (by rw [List.length_drop]; omega)]
        by_cases c3 : (buf.drop 9).length < 1
        · have h3 : readBytes 1 (buf.drop 9) = .error "short buffer" := readBytes_short _ _ c3
          simp only [Coordinate.decode, h1, h2, h3, DecodeResult.bind_ok,
            DecodeResult.bind_error, List.drop_drop]
        · rw [List.length_drop] at c3
          have h3 : readBytes 1 (buf.drop 9) =
              .ok ((buf.drop 9).take 1, (buf.drop 9).drop 1) := by
            rw [readBytes, if_pos (by rw [List.length_drop]; omega)]
          by_cases c4 : (buf.drop 10).length < 8
          · have h4 : readBytes 8 (buf.drop 10) = .error "short buffer" :=
              readBytes_short _ _ c4
            simp only [Coordinate.decode, h1, h2, h3, h4, DecodeResult.bind_ok,
              DecodeResult.bind_error, List.drop_drop]
          · rw [List.length_drop] at c4
            have h4 : readBytes 8 (buf.drop 10) =
                .ok ((buf.drop 10).take 8, (buf.drop 10).drop 8) := by
              rw [readBytes, if_pos (by rw [List.length_drop]; omega)]
            have h5 : readBytes 1 (buf.drop 18) = .error "short buffer" :=
              readBytes_short _ _ (by rw [List.length_drop]; omega)
            simp only [Coordinate.decode, h1, h2, h3, h4, h5, DecodeResult.bind_ok,
              DecodeResult.bind_error, List.drop_drop]

/-- Witness for C6: a concrete 19-byte buffer (the binary layout of the
point `(5.0, 45.5)` with `(`, `,`, `)` marker bytes) decodes to the two
IEEE-754 bit patterns, and a 3-byte buffer fails with the short-buffer
error. -/
theorem C6_point_binary_decode_witness :
    Coordinate.decode (.binary
        [40, 64, 20, 0, 0, 0, 0, 0, 0, 44, 64, 70, 192, 0, 0, 0, 0, 0, 41]) =
      .ok (Coordinate.mk 4617315517961601024 4631600373029666816) ∧
    Coordinate.decode (.binary [40, 64, 20]) = .error "short buffer" := by
  constructor
  · have h := (C6_point_binary_decode
      [40, 64, 20, 0, 0, 0, 0, 0, 0, 44, 64, 70, 192, 0, 0, 0, 0, 0, 41]).1 (by decide)
    rw [h]
    decide
  · exact (C6_point_binary_decode [40, 64, 20]).2 (by decide)

/-- C7: decoding a binary-format Interval payload shorter than 16 bytes —
the reads of 8, 4 and 4 bytes cannot all be served — fails with the
recoverable short-buffer error value (the decoder is a total function on
the cursor: no out-of-bounds access, no panic). -/
theorem C7_interval_short_buffer (bs : List Nat) (h : bs.length < 16) :
    PgInterval.decode ⟨.binary, bs⟩ = .error "short buffer" := by
  by_cases c1 : bs.length < 8
  · have h1 : readBytes 8 bs = .error "short buffer" := readBytes_short _ _ c1
    simp only [PgInterval.decode, h1, DecodeResult.bind_error]
  · have h1 : readBytes 8 bs = .ok (bs.take 8, bs.drop 8) := by
      rw [readBytes, if_pos (by omega)]
    by_cases c2 : (bs.drop 8).length < 4
    · have h2 : readBytes 4 (bs.drop 8) = .error "short buffer" := readBytes_short _ _ c2
      simp only [PgInterval.decode, h1, h2, DecodeResult.bind_ok, DecodeResult.bind_error]
    · rw [List.length_drop] at c2
      have h2 : readBytes 4 (bs.drop 8) = .ok ((bs.drop 8).take 4, (bs.drop 8).drop 4) := by
        rw [readBytes, if_pos (by rw [List.length_drop]; omega)]
      have h3 : readBytes 4 (bs.drop 12) = .error "short buffer" :=
        readBytes_short _ _ (by rw [List.length_drop]; omega)
      simp only [PgInterval.decode, h1, h2, h3, DecodeResult.bind_ok,
        DecodeResult.bind_error, List.drop_drop]

/-- Witness for C7 at a concrete 10-byte buffer. -/
theorem C7_interval_short_buffer_witness :
    PgInterval.decode ⟨.binary, [0, 1, 2, 3, 4, 5, 6, 7, 8, 9]⟩ = .error "short buffer" :=
  C7_interval_short_buffer [0, 1, 2, 3, 4, 5, 6, 7, 8, 9] (by decide)

/-- C8: whenever the conversion of a `std::time::Duration`,
`chrono::Duration` or `time::Duration` into a `PgInterval` fails, the
convenience blanket `Encode` implementation aborts the process (the
`expect` call panics) instead of returning a caller-visible error value. -/
theorem C8_blanket_encode_aborts :
    (∀ (d : Duration) (buf : List Nat) (e : String),
        PgInterval.tryFromStd d = .error e →
        Duration.encode_by_ref d buf = .abort "failed to encode `std::time::Duration`") ∧
    (∀ (c : ChronoDuration) (buf : List Nat) (e : String),
        PgInterval.tryFromChrono c = .error e →
        ChronoDuration.encode_by_ref c buf = .abort "Failed to encode chrono::Duration") ∧
    (∀ (t : TimeDuration) (buf : List Nat) (e : String),
        PgInterval.tryFromTime t = .error e →
        TimeDuration.encode_by_ref t buf = .abort "Failed to encode time::Duration") := by
  refine ⟨?_, ?_, ?_⟩
  · intro d buf e h
    rw [Duration.encode_by_ref, h]
  · intro c buf e h
    rw [ChronoDuration.encode_by_ref, h]
  · intro t buf e h
    rw [TimeDuration.encode_by_ref, h]

/-- Witness for C8: a 1-nanosecond standard duration (precision loss), a
negative chrono duration (out of range for `to_std`) and a 1-nanosecond
time duration (precision loss) all abort their blanket encode. -/
theorem C8_blanket_encode_aborts_witness :
    Duration.encode_by_ref (Duration.mk 0 1) [] =
      .abort "failed to encode `std::time::Duration`" ∧
    ChronoDuration.encode_by_ref (ChronoDuration.mk (-1)) [] =
      .abort "Failed to encode chrono::Duration" ∧
    TimeDuration.encode_by_ref (TimeDuration.mk 1) [] =
      .abort "Failed to encode time::Duration" :=
  ⟨C8_blanket_encode_aborts.1 (Duration.mk 0 1) []
      "PostgreSQL `INTERVAL` does not support nanoseconds precision" (by decide),
   C8_blanket_encode_aborts.2.1 (ChronoDuration.mk (-1)) [] "OutOfRangeError" (by decide),
   C8_blanket_encode_aborts.2.2 (TimeDuration.mk 1) []
      "PostgreSQL `INTERVAL` does not support nanoseconds precision" (by decide)⟩

/-- C9 counterexample: the scalar and sequence forms of `PgInterval` do
NOT report the same wire type identifier — the scalar form reports
`INTERVAL` and the sequence form reports the distinct `INTERVAL_ARRAY`. -/
theorem C9_scalar_vs_sequence_counterexample :
    PgInterval.type_info ≠ PgInterval.slice_type_info := by
  decide

/-- C9 amended: every host value type supported by the codec layer maps
through `type_info` to exactly one `WireTypeId`; the mapping is identical
across host types — every scalar form reports `INTERVAL` and every
sequence form reports `INTERVAL_ARRAY` — but the scalar and sequence forms
of a type report distinct identifiers, not the same one. -/
theorem C9_wire_type_catalog_amended :
    Duration.type_info = PgInterval.type_info ∧
    ChronoDuration.type_info = PgInterval.type_info ∧
    TimeDuration.type_info = PgInterval.type_info ∧
    Duration.slice_type_info = PgInterval.slice_type_info ∧
    ChronoDuration.slice_type_info = PgInterval.slice_type_info ∧
    TimeDuration.slice_type_info = PgInterval.slice_type_info ∧
    PgInterval.type_info = PgTypeInfo.INTERVAL ∧
    PgInterval.slice_type_info = PgTypeInfo.INTERVAL_ARRAY ∧
    PgTypeInfo.INTERVAL ≠ PgTypeInfo.INTERVAL_ARRAY := by
  refine ⟨rfl, rfl, rfl, rfl, rfl, rfl, rfl, rfl, by decide⟩

theorem firstChar_append (a b : String) (c : Char) (h : firstChar a = some c) :
    firstChar (a ++ b) = some c := by
  rw [firstChar] at h
  rw [firstChar, String.data_append]
  cases hd : a.data with
  | nil => rw [hd] at h; exact absurd h (by simp)
  | cons hh tt =>
    rw [hd] at h
    simp only [List.head?] at h
    simp [h]

/-- C10: a database URL whose scheme is not in the fixed scheme table (for
example `ftp`) makes `QueryData::from_db` fail with the error naming the
offending scheme and the full URL; a recognized scheme whose backend
feature was excluded from the build fails with the backend-not-compiled
error naming that backend and the URL, an error value distinguishable from
the unknown-scheme one (the two texts always differ) — never a silent
no-op and never a crash. -/
theorem C10_scheme_dispatch (f : Features) (url : String) :
    (QueryData.from_db f "ftp" url = .error (unknownSchemeMsg "ftp" url)) ∧
    (f.sqlite = false →
        QueryData.from_db f "sqlite" url = .error (sqliteNotCompiledMsg url)) ∧
    (f.postgres = false →
        QueryData.from_db f "postgres" url = .error (postgresNotCompiledMsg url)) ∧
    (f.postgres = false →
        QueryData.from_db f "postgresql" url = .error (postgresNotCompiledMsg url)) ∧
    (f.mysql = false →
        QueryData.from_db f "mysql" url = .error (mysqlNotCompiledMsg url)) ∧
    (f.mysql = false →
        QueryData.from_db f "mariadb" url = .error (mysqlNotCompiledMsg url)) ∧
    (∀ s u : String, sqliteNotCompiledMsg url ≠ unknownSchemeMsg s u) ∧
    (∀ s u : String, postgresNotCompiledMsg url ≠ unknownSchemeMsg s u) ∧
    (∀ s u : String, mysqlNotCompiledMsg url ≠ unknownSchemeMsg s u) := by
  have hUnk : ∀ s u : String, firstChar (unknownSchemeMsg s u) = some 'u' := by
    intro s u
    rw [unknownSchemeMsg]
    exact firstChar_append _ _ _ (firstChar_append _ _ _ (firstChar_append _ _ _ (by decide)))
  have hNC : ∀ (u rest : String),
      firstChar ("database URL " ++ u ++ rest) = some 'd' := by
    intro u rest
    exact firstChar_append _ _ _ (firstChar_append _ _ _ (by decide))
  refine ⟨?_, ?_, ?_, ?_, ?_, ?_, ?_, ?_, ?_⟩
  · rw [QueryData.from_db, if_neg (by decide), if_neg (by decide), if_neg (by decide)]
  · intro h
    rw [QueryData.from_db, if_pos rfl, if_neg (by simp [h])]
  · intro h
    rw [QueryData.from_db, if_neg (by decide), if_pos (by decide), if_neg (by simp [h])]
  · intro h
    rw [QueryData.from_db, if_neg (by decide), if_pos (by decide), if_neg (by simp [h])]
  · intro h
    rw [QueryData.from_db, if_neg (by decide), if_neg (by decide), if_pos (by decide),
      if_neg (by simp [h])]
  · intro h
    rw [QueryData.from_db, if_neg (by decide), if_neg (by decide), if_pos (by decide),
      if_neg (by simp [h])]
  · intro s u hEq
    have h3 : (some 'd' : Option Char) = some 'u' := by
      have hl : firstChar (sqliteNotCompiledMsg url) = some 'd' := by
        rw [sqliteNotCompiledMsg]
        exact hNC url _
      rw [← hl, ← hUnk s u, hEq]
    exact absurd h3 (by decide)
  · intro s u hEq
    have h3 : (some 'd' : Option Char) = some 'u' := by
      have hl : firstChar (postgresNotCompiledMsg url) = some 'd' := by
        rw [postgresNotCompiledMsg]
        exact hNC url _
      rw [← hl, ← hUnk s u, hEq]
    exact absurd h3 (by decide)
  · intro s u hEq
    have h3 : (some 'd' : Option Char) = some 'u' := by
      have hl : firstChar (mysqlNotCompiledMsg url) = some 'd' := by
        rw [mysqlNotCompiledMsg]
        exact hNC url _
      rw [← hl, ← hUnk s u, hEq]
    exact absurd h3 (by decide)

/-- Witness for C10: with no backend compiled in, the scheme `ftp` fails
naming `"ftp"` and the URL, and the recognized scheme `sqlite` fails with
the backend-not-compiled text. -/
theorem C10_scheme_dispatch_witness :
    QueryData.from_db (Features.mk false false false) "ftp" "ftp://x/db" =
      .error "unexpected scheme \"ftp\" in database URL ftp://x/db" ∧
    QueryData.from_db (Features.mk false false false) "sqlite" "sqlite://a.db" =
      .error "database URL sqlite://a.db has the scheme of a SQLite database but the `sqlite` feature of sqlx was not enabled" := by
  constructor
  · have h := (C10_scheme_dispatch (Features.mk false false false) "ftp://x/db").1
    rw [h]
    decide
  · have h := (C10_scheme_dispatch (Features.mk false false false) "sqlite://a.db").2.1 rfl
    rw [h]
    decide

end Sqlx
